import Mathlib

/-
Shallow embedding of src/learners/subgradient_ssvm.py (class SubgradientSSVM).

Modelling conventions:
* numpy float arrays become functions Fin d → ℚ acting elementwise; numpy
  floats become ℚ.  np.sqrt is not rational, so it is passed to the step
  engine as an explicit parameter sqrt : ℚ → ℚ; every theorem about the
  adagrad branch holds for an arbitrary such function.
* decay_exponent is modelled as a natural number so that the power
  (t + 1) ** decay_exponent stays rational.
* the structured problem, and the external find_constraint helper
  (imported from ..utils, outside src/), are opaque collaborators: they are
  parameters of the epoch runners, exactly as black-box stubs drive them in
  the scenarios of the specification.
* the step counter self.t is incremented by the float literal 1. in the
  source; its value is always a whole number, modelled as ℕ.
* Python exceptions become an explicit error type: ValueError raised by
  _parallel_learning, AttributeError for a read of a missing attribute, and
  KeyboardInterrupt, which fit catches.  An interrupt is an asynchronous
  event; it is modelled by a schedule interrupted : ℕ → Bool telling for
  each iteration index whether the interrupt fires while that iteration's
  epoch is in progress (the epoch is where essentially all time is spent);
  the interrupted iteration then contributes nothing.
* print statements, verbosity, _compute_training_loss and the logger
  callback are pure observability per the specification and are omitted.
-/

namespace Pystruct

/-- A dense numeric vector of dimension d (a numpy array of floats). -/
abbrev Vec (d : ℕ) := Fin d → ℚ

/-- Python errors that the modelled code can raise. -/
inductive PyError where
  | valueError : PyError
  | attributeError : PyError
deriving DecidableEq

/-- The attributes of a SubgradientSSVM instance that the modelled methods
read.  The fields are the ones set in SubgradientSSVM.__init__ together
with those stored by the BaseSSVM constructor.  BaseSSVM is repository code
that is not under src/; its attribute set is modelled from the spec's
configuration list (max_iter, C, n_jobs, show_loss_every, ...).  In
particular there is no attribute named j_jobs anywhere.  w is initialized
lazily by fit; a fresh instance carries w = 0 there. -/
structure Learner (d : ℕ) where
  maxIter : ℤ
  C : ℚ
  momentum : ℚ
  learningRate : ℚ
  adagrad : Bool
  nJobs : ℤ
  showLossEvery : ℤ
  decayExponent : ℕ
  breakOnNoConstraints : Bool
  batchSize : Option ℕ
  w : Vec d
  gradOld : Vec d
  t : ℕ
deriving DecidableEq

/-- The structured problem collaborator, restricted to the batch interface
used by the mini-batch branch of _sequential_learning.  The per-example
oracle find_constraint is passed separately. -/
structure Problem (I L : Type) (d : ℕ) where
  batchLossAugmentedInference : List I → List L → Vec d → List L
  batchPsi : List I → List L → Vec d
  batchLoss : List L → List L → List ℚ

/-- The single-example constraint oracle: find_constraint(problem, x, y, w)
returns (y_hat, delta_psi, slack, loss). -/
abbrev Oracle (I L : Type) (d : ℕ) := I → L → Vec d → L × Vec d × ℚ × ℚ

/-- int(np.ceil(float(n) / k)) for natural n, k. -/
def ceilDivNat (n k : ℕ) : ℕ := (n + k - 1) / k

/-- Worker of sklearn.utils.gen_even_slices: for pack_num in
range(n_packs), this_n = n // n_packs plus one for the first n % n_packs
packs; non-empty slices (start, this_n) are yielded in order.  fuel counts
the remaining packs. -/
def genEvenSlicesAux (n nPacks : ℕ) : ℕ → ℕ → ℕ → List (ℕ × ℕ)
  | 0, _, _ => []
  | fuel + 1, pack, start =>
    let thisN := n / nPacks + (if pack < n % nPacks then 1 else 0)
    if thisN = 0 then
      genEvenSlicesAux n nPacks fuel (pack + 1) start
    else
      (start, thisN) :: genEvenSlicesAux n nPacks fuel (pack + 1) (start + thisN)

/-- sklearn.utils.gen_even_slices(n, n_packs) as a list of
(start, length) pairs. -/
def genEvenSlices (n nPacks : ℕ) : List (ℕ × ℕ) :=
  genEvenSlicesAux n nPacks nPacks 0 0

/-- The slice xs[start:start+len]. -/
def sliceList {α : Type} (xs : List α) (sl : ℕ × ℕ) : List α :=
  (xs.drop sl.1).take sl.2

/-- SubgradientSSVM._solve_subgradient(dpsi, n_samples), lines 95-119:
grad = dpsi - w / (C * n_samples); in adagrad mode grad_old += grad ** 2
and w += learning_rate * grad / (1 + sqrt(grad_old)); otherwise grad_old
becomes (1 - momentum) * grad + momentum * grad_old, the effective rate is
learning_rate, divided by (t + 1) ** decay_exponent when the exponent is
nonzero, and w += effective_lr * grad_old.  Finally t increases by 1. -/
def solveSubgradient {d : ℕ} (sqrt : ℚ → ℚ) (s : Learner d) (dpsi : Vec d)
    (nSamples : ℕ) : Learner d :=
  let grad : Vec d := fun i => dpsi i - s.w i / (s.C * (nSamples : ℚ))
  if s.adagrad then
    let gradOld : Vec d := fun i => s.gradOld i + grad i ^ 2
    { s with
      gradOld := gradOld
      w := fun i => s.w i + s.learningRate * grad i / (1 + sqrt (gradOld i))
      t := s.t + 1 }
  else
    let gradOld : Vec d := fun i =>
      (1 - s.momentum) * grad i + s.momentum * s.gradOld i
    let effectiveLr : ℚ :=
      if s.decayExponent = 0 then s.learningRate
      else s.learningRate / ((s.t : ℚ) + 1) ^ s.decayExponent
    { s with
      gradOld := gradOld
      w := fun i => s.w i + effectiveLr * gradOld i
      t := s.t + 1 }

/-- Accumulator threaded through an epoch: (objective, positive_slacks,
learner state). -/
abbrev EpochAcc (d : ℕ) := ℚ × ℕ × Learner d

/-- Body of the online loop of _sequential_learning (lines 218-225): call
find_constraint on one example with the current w, add the slack to the
objective, count it when slack > 0, then take one subgradient step with
n = n_samples. -/
def onlineBody {d : ℕ} {I L : Type} (sqrt : ℚ → ℚ) (findConstraint : Oracle I L d)
    (nSamples : ℕ) (acc : EpochAcc d) (xy : I × L) : EpochAcc d :=
  let (objective, positiveSlacks, s) := acc
  let (_, delta_psi, slack, _) := findConstraint xy.1 xy.2 s.w
  (objective + slack,
   if slack > 0 then positiveSlacks + 1 else positiveSlacks,
   solveSubgradient sqrt s delta_psi nSamples)

/-- Body of the mini-batch loop of _sequential_learning (lines 229-243):
run the batch oracle in relaxed mode, form delta_psi = batch_psi(true) -
batch_psi(predicted) and the summed batch loss, add the unclamped
violation = loss - w . delta_psi to the objective, add batch_size to
positive_slacks unconditionally, and take one subgradient step with
delta_psi / len(X_b) and n = n_samples. -/
def miniBatchBody {d : ℕ} {I L : Type} (sqrt : ℚ → ℚ) (prob : Problem I L d)
    (batchSize nSamples : ℕ) (X : List I) (Y : List L) (acc : EpochAcc d)
    (sl : ℕ × ℕ) : EpochAcc d :=
  let (objective, positiveSlacks, s) := acc
  let X_b := sliceList X sl
  let Y_b := sliceList Y sl
  let Y_hat := prob.batchLossAugmentedInference X_b Y_b s.w
  let delta_psi : Vec d := fun i => prob.batchPsi X_b Y_b i - prob.batchPsi X_b Y_hat i
  let loss := (prob.batchLoss Y_b Y_hat).sum
  let violation := loss - ∑ i, s.w i * delta_psi i
  (objective + violation,
   positiveSlacks + batchSize,
   solveSubgradient sqrt s (fun i => delta_psi i / ((X_b.length : ℚ))) nSamples)

/-- SubgradientSSVM._sequential_learning(X, Y), lines 215-244.  With
batch_size in [None, 1] the online loop runs over the examples in order;
otherwise the dataset is cut by gen_even_slices into
int(np.ceil(float(len(X)) / batch_size)) batches and the mini-batch loop
runs over them.  Returns (objective, positive_slacks) together with the
updated learner state, which the imperative source mutates in place. -/
def sequentialLearning {d : ℕ} {I L : Type} (sqrt : ℚ → ℚ) (prob : Problem I L d)
    (findConstraint : Oracle I L d) (s : Learner d) (X : List I) (Y : List L) :
    EpochAcc d :=
  let nSamples := X.length
  if s.batchSize = none ∨ s.batchSize = some 1 then
    (X.zip Y).foldl (onlineBody sqrt findConstraint nSamples) (0, 0, s)
  else
    let batchSize := s.batchSize.getD 0
    let nBatches := ceilDivNat X.length batchSize
    (genEvenSlices nSamples nBatches).foldl
      (miniBatchBody sqrt prob batchSize nSamples X Y) (0, 0, s)

/-- Per-constraint fan-in step of _parallel_learning (lines 205-210): an
example whose constraint has slack > 0 adds its slack to the objective,
its delta_psi to the slice's dpsi sum and one to positive_slacks; any
other example leaves all three unchanged. -/
def slackAccum {d : ℕ} {L : Type} (acc2 : ℚ × ℕ × Vec d)
    (c : L × Vec d × ℚ × ℚ) : ℚ × ℕ × Vec d :=
  if c.2.2.1 > 0 then
    (acc2.1 + c.2.2.1, acc2.2.1 + 1, fun i => acc2.2.2 i + c.2.1 i)
  else acc2

/-- Body of the batch loop of _parallel_learning (lines 196-212): fan out
find_constraint over the slice (the joblib join preserves submission
order, so the result is the in-order map), fold slackAccum over the
results starting from the running objective and positive_slacks and a zero
dpsi, then take one subgradient step with the aggregated dpsi and
n = n_samples. -/
def parallelBatchBody {d : ℕ} {I L : Type} (sqrt : ℚ → ℚ)
    (findConstraint : Oracle I L d) (nSamples : ℕ) (X : List I) (Y : List L)
    (acc : EpochAcc d) (sl : ℕ × ℕ) : EpochAcc d :=
  let (objective, positiveSlacks, s) := acc
  let X_b := sliceList X sl
  let Y_b := sliceList Y sl
  let candidateConstraints := (X_b.zip Y_b).map (fun xy => findConstraint xy.1 xy.2 s.w)
  let folded := candidateConstraints.foldl slackAccum (objective, positiveSlacks, fun _ => 0)
  (folded.1, folded.2.1, solveSubgradient sqrt s folded.2.2 nSamples)

/-- SubgradientSSVM._parallel_learning(X, Y), lines 180-213.  A non-None
batch_size raises ValueError at once.  The worker count is then resolved:
cpu_count() when n_jobs == -1, and otherwise the source reads self.j_jobs —
an attribute that does not exist (the instance stores n_jobs; see the
Learner docstring), so every other n_jobs raises AttributeError.  On
success the dataset is cut into int(np.ceil(float(len(X)) / n_jobs))
even slices and the batch body runs on each in order. -/
def parallelLearning {d : ℕ} {I L : Type} (sqrt : ℚ → ℚ)
    (findConstraint : Oracle I L d) (cpuCount : ℕ) (s : Learner d)
    (X : List I) (Y : List L) : Except PyError (EpochAcc d) :=
  let nSamples := X.length
  if s.batchSize ≠ none then
    .error .valueError
  else if s.nJobs = -1 then
    let nJobs := cpuCount
    let nBatches := ceilDivNat X.length nJobs
    .ok ((genEvenSlices nSamples nBatches).foldl
      (parallelBatchBody sqrt findConstraint nSamples X Y) (0, 0, s))
  else
    .error .attributeError

/-- One pass of the loop body of fit (lines 140-174), iterated on fuel.
Each iteration runs the sequential or the parallel epoch (n_jobs == 1
selects sequential), rescales the raw objective by C and adds
np.sum(w ** 2) / 2 for the post-epoch w, and then: if positive_slacks == 0
and break_on_no_constraints, breaks out of the loop WITHOUT appending
(the append statement comes after the break in the source); otherwise
appends the rescaled objective to objective_curve and continues.  An
interrupt firing during iteration i's epoch abandons that iteration and is
caught by the except KeyboardInterrupt handler, so fit still returns
normally with the curve built so far.  Errors raised by the parallel
runner propagate. -/
def fitAux {d : ℕ} {I L : Type} (sqrt : ℚ → ℚ) (prob : Problem I L d)
    (findConstraint : Oracle I L d) (cpuCount : ℕ) (interrupted : ℕ → Bool)
    (X : List I) (Y : List L) :
    ℕ → ℕ → Learner d → List ℚ → Except PyError (Learner d × List ℚ)
  | 0, _, s, curve => .ok (s, curve)
  | fuel + 1, iteration, s, curve =>
    if interrupted iteration then
      .ok (s, curve)
    else
      match
        (if s.nJobs = 1 then
          .ok (sequentialLearning sqrt prob findConstraint s X Y)
        else
          parallelLearning sqrt findConstraint cpuCount s X Y :
          Except PyError (EpochAcc d))
      with
      | .error e => .error e
      | .ok (objective, positiveSlacks, s2) =>
        let objective2 := objective * s2.C + (∑ i, s2.w i ^ 2) / 2
        if positiveSlacks = 0 ∧ s2.breakOnNoConstraints then
          .ok (s2, curve)
        else
          fitAux sqrt prob findConstraint cpuCount interrupted X Y fuel
            (iteration + 1) s2 (curve ++ [objective2])

/-- SubgradientSSVM.fit(X, Y), lines 121-178: initialize objective_curve
to [], run the loop body for iteration in xrange(max_iter) (empty when
max_iter <= 0), and return the learner together with objective_curve_.
The lazy initialization self.w = getattr(self, "w", zeros) is modelled by
the w field of the incoming state, which a fresh instance carries as 0. -/
def fit {d : ℕ} {I L : Type} (sqrt : ℚ → ℚ) (prob : Problem I L d)
    (findConstraint : Oracle I L d) (cpuCount : ℕ) (interrupted : ℕ → Bool)
    (s : Learner d) (X : List I) (Y : List L) :
    Except PyError (Learner d × List ℚ) :=
  fitAux sqrt prob findConstraint cpuCount interrupted X Y s.maxIter.toNat 0 s []

/-- Projection of a fit result onto the length of the objective curve,
used to state concrete scenarios. -/
def curveLen {d : ℕ} (r : Except PyError (Learner d × List ℚ)) : Option ℕ :=
  r.toOption.map fun p => p.2.length

/-- A concrete stand-in for np.sqrt used to evaluate scenarios; every
adagrad theorem holds for an arbitrary sqrt function. -/
def sqrtId : ℚ → ℚ := fun q => q

/-- A trivial structured problem over unit inputs and labels. -/
def trivProblem : Problem Unit Unit 1 where
  batchLossAugmentedInference := fun _ _ _ => []
  batchPsi := fun _ _ => fun _ => 0
  batchLoss := fun _ _ => []

/-- A stub oracle whose slack is 0 on every example. -/
def zeroOracle : Oracle Unit Unit 1 := fun _ _ _ => ((), fun _ => 0, 0, 0)

/-- A stub oracle whose slack is 1 on every example. -/
def oneOracle : Oracle Unit Unit 1 := fun _ _ _ => ((), fun _ => 1, 1, 1)

/-- A structured problem whose batch oracle yields loss 0 while the joint
feature map of the true labels is 1, so that a learner with positive w
sees a negative violation on every non-empty batch. -/
def decProblem : Problem Unit Unit 1 where
  batchLossAugmentedInference := fun _ _ _ => []
  batchPsi := fun _ Yb => fun _ => if Yb = [] then 0 else 1
  batchLoss := fun _ _ => []

/-- A concrete constraint record with slack 1. -/
def cPos : Unit × Vec 1 × ℚ × ℚ := ((), fun _ => 1, 1, 1)

/-- A concrete constraint record with slack 0. -/
def cZero : Unit × Vec 1 × ℚ × ℚ := ((), fun _ => 0, 0, 0)

/-- A concrete fan-in accumulator. -/
def acc0 : ℚ × ℕ × Vec 1 := (0, 0, fun _ => 0)

/-- An interrupt schedule that fires during the second iteration's epoch
(iteration index 1). -/
def intrAt1 : ℕ → Bool := fun i => decide (i = 1)

/-- A learner carrying the constructor defaults of SubgradientSSVM
(max_iter=100, C=1.0, momentum=0.9, learning_rate=0.001, adagrad=False,
n_jobs=1, show_loss_every=0, decay_exponent=0,
break_on_no_constraints=True, batch_size=None), with w lazily
initialized to zero as on a first fit. -/
def base : Learner 1 where
  maxIter := 100
  C := 1
  momentum := 9 / 10
  learningRate := 1 / 1000
  adagrad := false
  nJobs := 1
  showLossEvery := 0
  decayExponent := 0
  breakOnNoConstraints := true
  batchSize := none
  w := fun _ => 0
  gradOld := fun _ => 0
  t := 0

theorem solveSubgradient_t {d : ℕ} (sqrt : ℚ → ℚ) (s : Learner d) (dpsi : Vec d)
    (n : ℕ) : (solveSubgradient sqrt s dpsi n).t = s.t + 1 := by
  unfold solveSubgradient
  split <;> rfl

theorem solveSubgradient_batchSize {d : ℕ} (sqrt : ℚ → ℚ) (s : Learner d)
    (dpsi : Vec d) (n : ℕ) :
    (solveSubgradient sqrt s dpsi n).batchSize = s.batchSize := by
  unfold solveSubgradient
  split <;> rfl

theorem solveSubgradient_nJobs {d : ℕ} (sqrt : ℚ → ℚ) (s : Learner d)
    (dpsi : Vec d) (n : ℕ) :
    (solveSubgradient sqrt s dpsi n).nJobs = s.nJobs := by
  unfold solveSubgradient
  split <;> rfl

/-- Unfolding equation for the online loop body. -/
theorem onlineBody_eq {d : ℕ} {I L : Type} (sqrt : ℚ → ℚ)
    (findConstraint : Oracle I L d) (nSamples : ℕ) (acc : EpochAcc d)
    (xy : I × L) :
    onlineBody sqrt findConstraint nSamples acc xy =
      (acc.1 + (findConstraint xy.1 xy.2 acc.2.2.w).2.2.1,
       if (findConstraint xy.1 xy.2 acc.2.2.w).2.2.1 > 0 then acc.2.1 + 1 else acc.2.1,
       solveSubgradient sqrt acc.2.2 (findConstraint xy.1 xy.2 acc.2.2.w).2.1 nSamples) :=
  rfl

theorem foldl_onlineBody_t {d : ℕ} {I L : Type} (sqrt : ℚ → ℚ)
    (findConstraint : Oracle I L d) (nSamples : ℕ) :
    ∀ (l : List (I × L)) (acc : EpochAcc d),
      (l.foldl (onlineBody sqrt findConstraint nSamples) acc).2.2.t =
        acc.2.2.t + l.length := by
  intro l
  induction l with
  | nil => intro acc; simp
  | cons xy tl ih =>
    intro acc
    rw [List.foldl_cons, ih, onlineBody_eq]
    simp [solveSubgradient_t]
    omega

theorem foldl_onlineBody_ps_of_nonpos {d : ℕ} {I L : Type} (sqrt : ℚ → ℚ)
    (findConstraint : Oracle I L d) (nSamples : ℕ)
    (hns : ∀ x y w, (findConstraint x y w).2.2.1 ≤ 0) :
    ∀ (l : List (I × L)) (acc : EpochAcc d),
      (l.foldl (onlineBody sqrt findConstraint nSamples) acc).2.1 = acc.2.1 := by
  intro l
  induction l with
  | nil => intro acc; rfl
  | cons xy tl ih =>
    intro acc
    rw [List.foldl_cons, ih, onlineBody_eq]
    simp only [if_neg (not_lt.mpr (hns xy.1 xy.2 acc.2.2.w))]

/-- Unfolding equation for the mini-batch loop body. -/
theorem miniBatchBody_eq {d : ℕ} {I L : Type} (sqrt : ℚ → ℚ)
    (prob : Problem I L d) (batchSize nSamples : ℕ) (X : List I) (Y : List L)
    (acc : EpochAcc d) (sl : ℕ × ℕ) :
    miniBatchBody sqrt prob batchSize nSamples X Y acc sl =
      (acc.1 + ((prob.batchLoss (sliceList Y sl)
            (prob.batchLossAugmentedInference (sliceList X sl) (sliceList Y sl)
              acc.2.2.w)).sum
          - ∑ i, acc.2.2.w i *
              (prob.batchPsi (sliceList X sl) (sliceList Y sl) i
                - prob.batchPsi (sliceList X sl)
                    (prob.batchLossAugmentedInference (sliceList X sl)
                      (sliceList Y sl) acc.2.2.w) i)),
       acc.2.1 + batchSize,
       solveSubgradient sqrt acc.2.2
         (fun i =>
           (prob.batchPsi (sliceList X sl) (sliceList Y sl) i
             - prob.batchPsi (sliceList X sl)
                 (prob.batchLossAugmentedInference (sliceList X sl)
                   (sliceList Y sl) acc.2.2.w) i)
           / (((sliceList X sl).length : ℚ)))
         nSamples) :=
  rfl

theorem foldl_miniBatchBody_t {d : ℕ} {I L : Type} (sqrt : ℚ → ℚ)
    (prob : Problem I L d) (batchSize nSamples : ℕ) (X : List I) (Y : List L) :
    ∀ (l : List (ℕ × ℕ)) (acc : EpochAcc d),
      (l.foldl (miniBatchBody sqrt prob batchSize nSamples X Y) acc).2.2.t =
        acc.2.2.t + l.length := by
  intro l
  induction l with
  | nil => intro acc; simp
  | cons sl tl ih =>
    intro acc
    rw [List.foldl_cons, ih, miniBatchBody_eq]
    simp [solveSubgradient_t]
    omega

theorem foldl_miniBatchBody_ps {d : ℕ} {I L : Type} (sqrt : ℚ → ℚ)
    (prob : Problem I L d) (batchSize nSamples : ℕ) (X : List I) (Y : List L) :
    ∀ (l : List (ℕ × ℕ)) (acc : EpochAcc d),
      (l.foldl (miniBatchBody sqrt prob batchSize nSamples X Y) acc).2.1 =
        acc.2.1 + batchSize * l.length := by
  intro l
  induction l with
  | nil => intro acc; simp
  | cons sl tl ih =>
    intro acc
    rw [List.foldl_cons, ih, miniBatchBody_eq]
    simp
    ring

theorem foldl_miniBatchBody_batchSize {d : ℕ} {I L : Type} (sqrt : ℚ → ℚ)
    (prob : Problem I L d) (batchSize nSamples : ℕ) (X : List I) (Y : List L) :
    ∀ (l : List (ℕ × ℕ)) (acc : EpochAcc d),
      (l.foldl (miniBatchBody sqrt prob batchSize nSamples X Y) acc).2.2.batchSize =
        acc.2.2.batchSize := by
  intro l
  induction l with
  | nil => intro acc; rfl
  | cons sl tl ih =>
    intro acc
    rw [List.foldl_cons, ih, miniBatchBody_eq]
    simp [solveSubgradient_batchSize]

theorem foldl_miniBatchBody_nJobs {d : ℕ} {I L : Type} (sqrt : ℚ → ℚ)
    (prob : Problem I L d) (batchSize nSamples : ℕ) (X : List I) (Y : List L) :
    ∀ (l : List (ℕ × ℕ)) (acc : EpochAcc d),
      (l.foldl (miniBatchBody sqrt prob batchSize nSamples X Y) acc).2.2.nJobs =
        acc.2.2.nJobs := by
  intro l
  induction l with
  | nil => intro acc; rfl
  | cons sl tl ih =>
    intro acc
    rw [List.foldl_cons, ih, miniBatchBody_eq]
    simp [solveSubgradient_nJobs]

/-- Unfolding equation for the parallel batch body. -/
theorem parallelBatchBody_eq {d : ℕ} {I L : Type} (sqrt : ℚ → ℚ)
    (findConstraint : Oracle I L d) (nSamples : ℕ) (X : List I) (Y : List L)
    (acc : EpochAcc d) (sl : ℕ × ℕ) :
    parallelBatchBody sqrt findConstraint nSamples X Y acc sl =
      (let folded := (((sliceList X sl).zip (sliceList Y sl)).map
          (fun xy => findConstraint xy.1 xy.2 acc.2.2.w)).foldl slackAccum
          (acc.1, acc.2.1, fun _ => 0)
       (folded.1, folded.2.1, solveSubgradient sqrt acc.2.2 folded.2.2 nSamples)) :=
  rfl

theorem foldl_parallelBatchBody_t {d : ℕ} {I L : Type} (sqrt : ℚ → ℚ)
    (findConstraint : Oracle I L d) (nSamples : ℕ) (X : List I) (Y : List L) :
    ∀ (l : List (ℕ × ℕ)) (acc : EpochAcc d),
      (l.foldl (parallelBatchBody sqrt findConstraint nSamples X Y) acc).2.2.t =
        acc.2.2.t + l.length := by
  intro l
  induction l with
  | nil => intro acc; simp
  | cons sl tl ih =>
    intro acc
    rw [List.foldl_cons, ih, parallelBatchBody_eq]
    simp [solveSubgradient_t]
    omega

theorem one_le_ceilDivNat {n k : ℕ} (hk : 0 < k) (hn : 0 < n) :
    1 ≤ ceilDivNat n k := by
  unfold ceilDivNat
  rw [Nat.one_le_div_iff hk]
  omega

theorem ceilDivNat_le {n k : ℕ} (hk : 0 < k) : ceilDivNat n k ≤ n := by
  unfold ceilDivNat
  have h : n + k - 1 ≤ k * n + (k - 1) := by
    have := Nat.le_mul_of_pos_left n hk
    omega
  exact (Nat.div_le_iff_le_mul_add_pred hk).mpr h

theorem le_ceilDivNat_mul {n k : ℕ} (hk : 0 < k) (hn : 0 < n) :
    n ≤ ceilDivNat n k * k := by
  unfold ceilDivNat
  have h1 := Nat.div_add_mod (n + k - 1) k
  have h2 : (n + k - 1) % k < k := Nat.mod_lt _ hk
  have h3 : k * ((n + k - 1) / k) = n + k - 1 - (n + k - 1) % k := by omega
  rw [Nat.mul_comm]
  omega

theorem genEvenSlicesAux_length {n nPacks : ℕ} (h : 0 < n / nPacks) :
    ∀ (fuel pack start : ℕ),
      (genEvenSlicesAux n nPacks fuel pack start).length = fuel := by
  intro fuel
  induction fuel with
  | zero => intro pack start; rfl
  | succ f ih =>
    intro pack start
    unfold genEvenSlicesAux
    have hne : ¬(n / nPacks + (if pack < n % nPacks then 1 else 0) = 0) := by
      split <;> omega
    simp only [if_neg hne, List.length_cons, ih]

theorem genEvenSlices_length {n nPacks : ℕ} (h1 : 0 < nPacks) (h2 : nPacks ≤ n) :
    (genEvenSlices n nPacks).length = nPacks := by
  unfold genEvenSlices
  exact genEvenSlicesAux_length ((Nat.one_le_div_iff h1).mpr h2) nPacks 0 0

theorem sequentialLearning_online_eq {d : ℕ} {I L : Type} (sqrt : ℚ → ℚ)
    (prob : Problem I L d) (findConstraint : Oracle I L d) (s : Learner d)
    (X : List I) (Y : List L) (h : s.batchSize = none ∨ s.batchSize = some 1) :
    sequentialLearning sqrt prob findConstraint s X Y =
      (X.zip Y).foldl (onlineBody sqrt findConstraint X.length) (0, 0, s) := by
  unfold sequentialLearning
  rw [if_pos h]

theorem sequentialLearning_miniBatch_eq {d : ℕ} {I L : Type} (sqrt : ℚ → ℚ)
    (prob : Problem I L d) (findConstraint : Oracle I L d) (s : Learner d)
    (X : List I) (Y : List L) (k : ℕ) (hb : s.batchSize = some k) (hk : k ≠ 1) :
    sequentialLearning sqrt prob findConstraint s X Y =
      (genEvenSlices X.length (ceilDivNat X.length k)).foldl
        (miniBatchBody sqrt prob k X.length X Y) (0, 0, s) := by
  unfold sequentialLearning
  rw [if_neg (by simp [hb, hk])]
  rw [hb]
  rfl

theorem sequentialLearning_t_ge {d : ℕ} {I L : Type} (sqrt : ℚ → ℚ)
    (prob : Problem I L d) (findConstraint : Oracle I L d) (s : Learner d)
    (X : List I) (Y : List L) :
    s.t ≤ (sequentialLearning sqrt prob findConstraint s X Y).2.2.t := by
  by_cases h : s.batchSize = none ∨ s.batchSize = some 1
  · rw [sequentialLearning_online_eq sqrt prob findConstraint s X Y h,
      foldl_onlineBody_t]
    exact Nat.le_add_right _ _
  · push_neg at h
    cases hb : s.batchSize with
    | none => exact absurd hb h.1
    | some k =>
      have hk : k ≠ 1 := by
        intro hk1
        exact h.2 (by rw [hb, hk1])
      rw [sequentialLearning_miniBatch_eq sqrt prob findConstraint s X Y k hb hk,
        foldl_miniBatchBody_t]
      exact Nat.le_add_right _ _

theorem parallelLearning_ok_elim {d : ℕ} {I L : Type} (sqrt : ℚ → ℚ)
    (findConstraint : Oracle I L d) (cpuCount : ℕ) (s : Learner d)
    (X : List I) (Y : List L) (r : EpochAcc d)
    (h : parallelLearning sqrt findConstraint cpuCount s X Y = .ok r) :
    s.batchSize = none ∧ s.nJobs = -1 ∧
      r = (genEvenSlices X.length (ceilDivNat X.length cpuCount)).foldl
            (parallelBatchBody sqrt findConstraint X.length X Y) (0, 0, s) := by
  unfold parallelLearning at h
  by_cases hb : s.batchSize = none
  · rw [if_neg (by simp [hb])] at h
    by_cases hj : s.nJobs = -1
    · rw [if_pos hj] at h
      exact ⟨hb, hj, (Except.ok.injEq _ _).mp h.symm⟩
    · rw [if_neg hj] at h
      exact absurd h (by simp)
  · rw [if_pos (by simp [hb])] at h
    exact absurd h (by simp)

theorem parallelLearning_t_ge {d : ℕ} {I L : Type} (sqrt : ℚ → ℚ)
    (findConstraint : Oracle I L d) (cpuCount : ℕ) (s : Learner d)
    (X : List I) (Y : List L) (r : EpochAcc d)
    (h : parallelLearning sqrt findConstraint cpuCount s X Y = .ok r) :
    s.t ≤ r.2.2.t := by
  obtain ⟨-, -, hr⟩ := parallelLearning_ok_elim sqrt findConstraint cpuCount s X Y r h
  rw [hr, foldl_parallelBatchBody_t]
  exact Nat.le_add_right _ _

/-- Unfolding equation for one pass of the fit loop. -/
theorem fitAux_succ {d : ℕ} {I L : Type} (sqrt : ℚ → ℚ) (prob : Problem I L d)
    (findConstraint : Oracle I L d) (cpuCount : ℕ) (interrupted : ℕ → Bool)
    (X : List I) (Y : List L) (fuel iteration : ℕ) (s : Learner d)
    (curve : List ℚ) :
    fitAux sqrt prob findConstraint cpuCount interrupted X Y (fuel + 1)
        iteration s curve =
      if interrupted iteration then
        .ok (s, curve)
      else
        match
          (if s.nJobs = 1 then
            .ok (sequentialLearning sqrt prob findConstraint s X Y)
          else
            parallelLearning sqrt findConstraint cpuCount s X Y :
            Except PyError (EpochAcc d))
        with
        | .error e => .error e
        | .ok (objective, positiveSlacks, s2) =>
          if positiveSlacks = 0 ∧ s2.breakOnNoConstraints then
            .ok (s2, curve)
          else
            fitAux sqrt prob findConstraint cpuCount interrupted X Y fuel
              (iteration + 1) s2
              (curve ++ [objective * s2.C + (∑ i, s2.w i ^ 2) / 2]) :=
  rfl

theorem fitAux_t_mono {d : ℕ} {I L : Type} (sqrt : ℚ → ℚ) (prob : Problem I L d)
    (findConstraint : Oracle I L d) (cpuCount : ℕ) (interrupted : ℕ → Bool)
    (X : List I) (Y : List L) :
    ∀ (fuel iteration : ℕ) (s : Learner d) (curve : List ℚ) (sf : Learner d)
      (cf : List ℚ),
      fitAux sqrt prob findConstraint cpuCount interrupted X Y fuel iteration
          s curve = .ok (sf, cf) →
      s.t ≤ sf.t := by
  intro fuel
  induction fuel with
  | zero =>
    intro iteration s curve sf cf h
    unfold fitAux at h
    cases h
    exact le_refl _
  | succ f ih =>
    intro iteration s curve sf cf h
    rw [fitAux_succ] at h
    by_cases hI : interrupted iteration = true
    · rw [if_pos hI] at h
      cases h
      exact le_refl _
    · rw [if_neg hI] at h
      rcases hE : (if s.nJobs = 1 then
          .ok (sequentialLearning sqrt prob findConstraint s X Y)
        else
          parallelLearning sqrt findConstraint cpuCount s X Y :
          Except PyError (EpochAcc d)) with e | r
      · rw [hE] at h
        exact absurd h (by simp)
      · have hle : s.t ≤ r.2.2.t := by
          by_cases hj : s.nJobs = 1
          · rw [if_pos hj] at hE
            have : r = sequentialLearning sqrt prob findConstraint s X Y :=
              ((Except.ok.injEq _ _).mp hE).symm
            rw [this]
            exact sequentialLearning_t_ge sqrt prob findConstraint s X Y
          · rw [if_neg hj] at hE
            exact parallelLearning_t_ge sqrt findConstraint cpuCount s X Y r hE
        obtain ⟨obj, ps, s2⟩ := r
        rw [hE] at h
        simp only [] at h
        by_cases hbrk : ps = 0 ∧ s2.breakOnNoConstraints
        · rw [if_pos hbrk] at h
          cases h
          exact hle
        · rw [if_neg hbrk] at h
          exact le_trans hle (ih _ _ _ _ _ h)

theorem solveSubgradient_breakOn {d : ℕ} (sqrt : ℚ → ℚ) (s : Learner d)
    (dpsi : Vec d) (n : ℕ) :
    (solveSubgradient sqrt s dpsi n).breakOnNoConstraints =
      s.breakOnNoConstraints := by
  unfold solveSubgradient
  split <;> rfl

theorem foldl_onlineBody_breakOn {d : ℕ} {I L : Type} (sqrt : ℚ → ℚ)
    (findConstraint : Oracle I L d) (nSamples : ℕ) :
    ∀ (l : List (I × L)) (acc : EpochAcc d),
      (l.foldl (onlineBody sqrt findConstraint nSamples) acc).2.2.breakOnNoConstraints =
        acc.2.2.breakOnNoConstraints := by
  intro l
  induction l with
  | nil => intro acc; rfl
  | cons xy tl ih =>
    intro acc
    rw [List.foldl_cons, ih, onlineBody_eq]
    simp [solveSubgradient_breakOn]

theorem foldl_miniBatchBody_breakOn {d : ℕ} {I L : Type} (sqrt : ℚ → ℚ)
    (prob : Problem I L d) (batchSize nSamples : ℕ) (X : List I) (Y : List L) :
    ∀ (l : List (ℕ × ℕ)) (acc : EpochAcc d),
      (l.foldl (miniBatchBody sqrt prob batchSize nSamples X Y) acc).2.2.breakOnNoConstraints =
        acc.2.2.breakOnNoConstraints := by
  intro l
  induction l with
  | nil => intro acc; rfl
  | cons sl tl ih =>
    intro acc
    rw [List.foldl_cons, ih, miniBatchBody_eq]
    simp [solveSubgradient_breakOn]

theorem sequentialLearning_breakOn {d : ℕ} {I L : Type} (sqrt : ℚ → ℚ)
    (prob : Problem I L d) (findConstraint : Oracle I L d) (s : Learner d)
    (X : List I) (Y : List L) :
    (sequentialLearning sqrt prob findConstraint s X Y).2.2.breakOnNoConstraints =
      s.breakOnNoConstraints := by
  by_cases h : s.batchSize = none ∨ s.batchSize = some 1
  · rw [sequentialLearning_online_eq sqrt prob findConstraint s X Y h,
      foldl_onlineBody_breakOn]
  · push_neg at h
    cases hb : s.batchSize with
    | none => exact absurd hb h.1
    | some k =>
      have hk : k ≠ 1 := by
        intro hk1
        exact h.2 (by rw [hb, hk1])
      rw [sequentialLearning_miniBatch_eq sqrt prob findConstraint s X Y k hb hk,
        foldl_miniBatchBody_breakOn]

theorem foldl_onlineBody_batchSize {d : ℕ} {I L : Type} (sqrt : ℚ → ℚ)
    (findConstraint : Oracle I L d) (nSamples : ℕ) :
    ∀ (l : List (I × L)) (acc : EpochAcc d),
      (l.foldl (onlineBody sqrt findConstraint nSamples) acc).2.2.batchSize =
        acc.2.2.batchSize := by
  intro l
  induction l with
  | nil => intro acc; rfl
  | cons xy tl ih =>
    intro acc
    rw [List.foldl_cons, ih, onlineBody_eq]
    simp [solveSubgradient_batchSize]

theorem foldl_onlineBody_nJobs {d : ℕ} {I L : Type} (sqrt : ℚ → ℚ)
    (findConstraint : Oracle I L d) (nSamples : ℕ) :
    ∀ (l : List (I × L)) (acc : EpochAcc d),
      (l.foldl (onlineBody sqrt findConstraint nSamples) acc).2.2.nJobs =
        acc.2.2.nJobs := by
  intro l
  induction l with
  | nil => intro acc; rfl
  | cons xy tl ih =>
    intro acc
    rw [List.foldl_cons, ih, onlineBody_eq]
    simp [solveSubgradient_nJobs]

theorem sequentialLearning_batchSize {d : ℕ} {I L : Type} (sqrt : ℚ → ℚ)
    (prob : Problem I L d) (findConstraint : Oracle I L d) (s : Learner d)
    (X : List I) (Y : List L) :
    (sequentialLearning sqrt prob findConstraint s X Y).2.2.batchSize =
      s.batchSize := by
  by_cases h : s.batchSize = none ∨ s.batchSize = some 1
  · rw [sequentialLearning_online_eq sqrt prob findConstraint s X Y h,
      foldl_onlineBody_batchSize]
  · push_neg at h
    cases hb : s.batchSize with
    | none => exact absurd hb h.1
    | some k =>
      have hk : k ≠ 1 := by
        intro hk1
        exact h.2 (by rw [hb, hk1])
      rw [sequentialLearning_miniBatch_eq sqrt prob findConstraint s X Y k hb hk,
        foldl_miniBatchBody_batchSize]
      exact hb

theorem sequentialLearning_nJobs {d : ℕ} {I L : Type} (sqrt : ℚ → ℚ)
    (prob : Problem I L d) (findConstraint : Oracle I L d) (s : Learner d)
    (X : List I) (Y : List L) :
    (sequentialLearning sqrt prob findConstraint s X Y).2.2.nJobs = s.nJobs := by
  by_cases h : s.batchSize = none ∨ s.batchSize = some 1
  · rw [sequentialLearning_online_eq sqrt prob findConstraint s X Y h,
      foldl_onlineBody_nJobs]
  · push_neg at h
    cases hb : s.batchSize with
    | none => exact absurd hb h.1
    | some k =>
      have hk : k ≠ 1 := by
        intro hk1
        exact h.2 (by rw [hb, hk1])
      rw [sequentialLearning_miniBatch_eq sqrt prob findConstraint s X Y k hb hk,
        foldl_miniBatchBody_nJobs]

theorem sequentialLearning_miniBatch_ps {d : ℕ} {I L : Type} (sqrt : ℚ → ℚ)
    (prob : Problem I L d) (findConstraint : Oracle I L d) (s : Learner d)
    (X : List I) (Y : List L) (k : ℕ) (hb : s.batchSize = some k) (hk : 2 ≤ k)
    (hX : X ≠ []) :
    (sequentialLearning sqrt prob findConstraint s X Y).2.1 =
      ceilDivNat X.length k * k := by
  have hk0 : 0 < k := by omega
  have hN : 0 < X.length := List.length_pos.mpr hX
  have hk1 : k ≠ 1 := by omega
  rw [sequentialLearning_miniBatch_eq sqrt prob findConstraint s X Y k hb hk1,
    foldl_miniBatchBody_ps,
    genEvenSlices_length (one_le_ceilDivNat hk0 hN) (ceilDivNat_le hk0)]
  simp [Nat.mul_comm]

theorem sequentialLearning_ps_zero {d : ℕ} {I L : Type} (sqrt : ℚ → ℚ)
    (prob : Problem I L d) (findConstraint : Oracle I L d) (s : Learner d)
    (X : List I) (Y : List L) (hb : s.batchSize = none ∨ s.batchSize = some 1)
    (hns : ∀ x y w, (findConstraint x y w).2.2.1 ≤ 0) :
    (sequentialLearning sqrt prob findConstraint s X Y).2.1 = 0 := by
  rw [sequentialLearning_online_eq sqrt prob findConstraint s X Y hb]
  exact foldl_onlineBody_ps_of_nonpos sqrt findConstraint X.length hns _ _

/-- C1: every _solve_subgradient(dpsi, n) step first computes
grad = dpsi - w / (C * n); with adagrad enabled it sets
grad_old += grad ^ 2 elementwise and
w += learning_rate * grad / (1 + sqrt(grad_old)) elementwise, the momentum
and decay_exponent settings having no effect on the result; otherwise it
sets grad_old = (1 - momentum) * grad + momentum * grad_old and
w += effective_rate * grad_old, where effective_rate = learning_rate when
decay_exponent == 0 and learning_rate / (t+1) ^ decay_exponent otherwise;
and in both modes t then increases by exactly 1. -/
theorem C1_solve_subgradient_step {d : ℕ} (sqrt : ℚ → ℚ) (s : Learner d)
    (dpsi : Vec d) (n : ℕ) :
    (solveSubgradient sqrt s dpsi n).t = s.t + 1 ∧
    (s.adagrad = true →
      ((solveSubgradient sqrt s dpsi n).gradOld
          = fun i => s.gradOld i + (dpsi i - s.w i / (s.C * (n : ℚ))) ^ 2) ∧
      ((solveSubgradient sqrt s dpsi n).w
          = fun i => s.w i + s.learningRate * (dpsi i - s.w i / (s.C * (n : ℚ)))
              / (1 + sqrt (s.gradOld i + (dpsi i - s.w i / (s.C * (n : ℚ))) ^ 2))) ∧
      (∀ m : ℚ, ∀ e : ℕ,
        ((solveSubgradient sqrt { s with momentum := m, decayExponent := e } dpsi n).w
            = (solveSubgradient sqrt s dpsi n).w) ∧
        ((solveSubgradient sqrt { s with momentum := m, decayExponent := e } dpsi n).gradOld
            = (solveSubgradient sqrt s dpsi n).gradOld) ∧
        ((solveSubgradient sqrt { s with momentum := m, decayExponent := e } dpsi n).t
            = (solveSubgradient sqrt s dpsi n).t))) ∧
    (s.adagrad = false →
      ((solveSubgradient sqrt s dpsi n).gradOld
          = fun i => (1 - s.momentum) * (dpsi i - s.w i / (s.C * (n : ℚ)))
              + s.momentum * s.gradOld i) ∧
      (s.decayExponent = 0 →
        (solveSubgradient sqrt s dpsi n).w
            = fun i => s.w i
                + s.learningRate * ((solveSubgradient sqrt s dpsi n).gradOld i)) ∧
      (s.decayExponent ≠ 0 →
        (solveSubgradient sqrt s dpsi n).w
            = fun i => s.w i
                + (s.learningRate / ((s.t : ℚ) + 1) ^ s.decayExponent)
                    * ((solveSubgradient sqrt s dpsi n).gradOld i))) := by
  refine ⟨solveSubgradient_t sqrt s dpsi n, fun hA => ?_, fun hA => ?_⟩
  · refine ⟨?_, ?_, fun m e => ⟨?_, ?_, ?_⟩⟩ <;>
      simp [solveSubgradient, hA]
  · refine ⟨?_, fun hD => ?_, fun hD => ?_⟩
    · simp [solveSubgradient, hA]
    · simp [solveSubgradient, hA, hD]
    · simp [solveSubgradient, hA, hD]

theorem C1_solve_subgradient_step_witness :
    ({ base with adagrad := true } : Learner 1).adagrad = true ∧
    base.adagrad = false ∧
    ((solveSubgradient sqrtId { base with adagrad := true } (fun _ => 1) 2).gradOld
        = fun i => ({ base with adagrad := true } : Learner 1).gradOld i
            + ((fun _ => 1 : Vec 1) i
                - ({ base with adagrad := true } : Learner 1).w i
                  / (({ base with adagrad := true } : Learner 1).C * ((2 : ℕ) : ℚ))) ^ 2) ∧
    ((solveSubgradient sqrtId base (fun _ => 1) 2).gradOld
        = fun i => (1 - base.momentum)
            * ((fun _ => 1 : Vec 1) i - base.w i / (base.C * ((2 : ℕ) : ℚ)))
            + base.momentum * base.gradOld i) :=
  ⟨rfl, rfl,
   ((C1_solve_subgradient_step sqrtId { base with adagrad := true }
       (fun _ => 1) 2).2.1 rfl).1,
   ((C1_solve_subgradient_step sqrtId base (fun _ => 1) 2).2.2 rfl).1⟩

/-- C2 counterexample: at the claim's own scenario (stub oracle returning
slack = 0 for every example from the first iteration, max_iter = 3,
break_on_no_constraints = true) the objective curve has length 0, not 1:
the source breaks out of the loop before the append statement. -/
theorem C2_counterexample_curve_empty :
    curveLen (fit sqrtId trivProblem zeroOracle 1 (fun _ => false)
      { base with maxIter := 3 } [(), ()] [(), ()]) = some 0 := by
  rfl

/-- C2 (amended): when an epoch returns positive_slacks == 0 and
break_on_no_constraints is true, the loop stops immediately and that
epoch's primal objective is NOT appended to the objective curve; with a
stub oracle returning slack <= 0 for every example from the first
iteration in online mode, fit returns the state of the single epoch that
ran and an EMPTY objective curve (length 0, not 1). -/
theorem C2_break_skips_append {d : ℕ} {I L : Type} (sqrt : ℚ → ℚ)
    (prob : Problem I L d) (findConstraint : Oracle I L d) (cpuCount : ℕ)
    (interrupted : ℕ → Bool) (s : Learner d) (X : List I) (Y : List L)
    (hj : s.nJobs = 1) (hb : s.batchSize = none ∨ s.batchSize = some 1)
    (hbrk : s.breakOnNoConstraints = true) (hm : 1 ≤ s.maxIter)
    (hI : interrupted 0 = false)
    (hns : ∀ x y w, (findConstraint x y w).2.2.1 ≤ 0) :
    fit sqrt prob findConstraint cpuCount interrupted s X Y =
      .ok ((sequentialLearning sqrt prob findConstraint s X Y).2.2, []) := by
  obtain ⟨m, hm2⟩ : ∃ m, s.maxIter.toNat = m + 1 :=
    ⟨s.maxIter.toNat - 1, by omega⟩
  have hps := sequentialLearning_ps_zero sqrt prob findConstraint s X Y hb hns
  have hbr2 := sequentialLearning_breakOn sqrt prob findConstraint s X Y
  unfold fit
  rw [hm2, fitAux_succ, if_neg (by simp [hI]), if_pos hj]
  rcases hSL : sequentialLearning sqrt prob findConstraint s X Y with ⟨obj, ps, s2⟩
  rw [hSL] at hps hbr2
  simp only []
  rw [if_pos ⟨hps, by rw [hbr2, hbrk]⟩]

theorem C2_break_skips_append_witness :
    fit sqrtId trivProblem zeroOracle 1 (fun _ => false)
        { base with maxIter := 2 } [()] [()] =
      .ok ((sequentialLearning sqrtId trivProblem zeroOracle
          { base with maxIter := 2 } [()] [()]).2.2, []) :=
  C2_break_skips_append sqrtId trivProblem zeroOracle 1 (fun _ => false)
    { base with maxIter := 2 } [()] [()] rfl (Or.inl rfl) rfl (by norm_num)
    rfl (fun _ _ _ => le_refl 0)

/-- C3: in sequential mini-batch mode (batch_size = k > 1) every batch
computes violation = total_loss - w . delta_psi with no clamping at zero —
so the epoch objective strictly decreases on a batch whose violation is
negative — adds the violation to the objective, adds k to positive_slacks
unconditionally, and applies exactly one gradient step per batch with
dpsi divided by that batch's actual example count; the mini-batch epoch is
exactly the fold of this per-batch step over the even slices. -/
theorem C3_mini_batch_step {d : ℕ} {I L : Type} (sqrt : ℚ → ℚ)
    (prob : Problem I L d) (findConstraint : Oracle I L d) (k nSamples : ℕ)
    (X : List I) (Y : List L) (obj : ℚ) (ps : ℕ) (s : Learner d) (sl : ℕ × ℕ) :
    let X_b := sliceList X sl
    let Y_b := sliceList Y sl
    let Y_hat := prob.batchLossAugmentedInference X_b Y_b s.w
    let delta_psi : Vec d := fun i => prob.batchPsi X_b Y_b i - prob.batchPsi X_b Y_hat i
    let violation := (prob.batchLoss Y_b Y_hat).sum - ∑ i, s.w i * delta_psi i
    ((miniBatchBody sqrt prob k nSamples X Y (obj, ps, s) sl).1 = obj + violation) ∧
    ((miniBatchBody sqrt prob k nSamples X Y (obj, ps, s) sl).2.1 = ps + k) ∧
    ((miniBatchBody sqrt prob k nSamples X Y (obj, ps, s) sl).2.2 =
      solveSubgradient sqrt s (fun i => delta_psi i / ((X_b.length : ℚ))) nSamples) ∧
    ((miniBatchBody sqrt prob k nSamples X Y (obj, ps, s) sl).2.2.t = s.t + 1) ∧
    (violation < 0 → (miniBatchBody sqrt prob k nSamples X Y (obj, ps, s) sl).1 < obj) ∧
    (s.batchSize = some k → k ≠ 1 →
      sequentialLearning sqrt prob findConstraint s X Y =
        (genEvenSlices X.length (ceilDivNat X.length k)).foldl
          (miniBatchBody sqrt prob k X.length X Y) (0, 0, s)) := by
  refine ⟨rfl, rfl, rfl, ?_, fun hv => ?_, fun hb hk => ?_⟩
  · rw [miniBatchBody_eq]
    exact solveSubgradient_t sqrt s _ nSamples
  · rw [miniBatchBody_eq]
    simp only []
    linarith
  · exact sequentialLearning_miniBatch_eq sqrt prob findConstraint s X Y k hb hk

theorem C3_mini_batch_step_witness :
    ((miniBatchBody sqrtId decProblem 2 2 [(), ()] [(), ()]
        (5, 0, { base with w := fun _ => 1, batchSize := some 2 }) (0, 2)).1 < 5) ∧
    ((miniBatchBody sqrtId decProblem 2 2 [(), ()] [(), ()]
        (5, 0, { base with w := fun _ => 1, batchSize := some 2 }) (0, 2)).2.1 = 0 + 2) ∧
    (sequentialLearning sqrtId decProblem zeroOracle
        { base with w := fun _ => 1, batchSize := some 2 } [(), ()] [(), ()] =
      (genEvenSlices 2 (ceilDivNat 2 2)).foldl
        (miniBatchBody sqrtId decProblem 2 2 [(), ()] [(), ()])
        (0, 0, { base with w := fun _ => 1, batchSize := some 2 })) :=
  ⟨(C3_mini_batch_step sqrtId decProblem zeroOracle 2 2 [(), ()] [(), ()]
      5 0 { base with w := fun _ => 1, batchSize := some 2 } (0, 2)).2.2.2.2.1
      (by norm_num [decProblem, sliceList, Fin.sum_univ_one,
        if_neg (List.cons_ne_nil () [()])]),
   (C3_mini_batch_step sqrtId decProblem zeroOracle 2 2 [(), ()] [(), ()]
      5 0 { base with w := fun _ => 1, batchSize := some 2 } (0, 2)).2.1,
   (C3_mini_batch_step sqrtId decProblem zeroOracle 2 2 [(), ()] [(), ()]
      5 0 { base with w := fun _ => 1, batchSize := some 2 } (0, 2)).2.2.2.2.2
      rfl (by decide)⟩

/-- C4 counterexample: a fit call configured with n_jobs = 2 and an
explicit batch_size = 5 but max_iter = 0 does NOT fail: the iteration
loop never runs, so the ValueError check inside _parallel_learning is
never reached and fit returns normally with an empty curve and an
untouched learner. -/
theorem C4_counterexample_max_iter_zero :
    fit sqrtId trivProblem zeroOracle 4 (fun _ => false)
        { base with maxIter := 0, nJobs := 2, batchSize := some 5 } [()] [()] =
      .ok ({ base with maxIter := 0, nJobs := 2, batchSize := some 5 }, []) := by
  rfl

/-- C4 (amended): for every fit call with max_iter >= 1 whose first
iteration is not interrupted, configuring n_jobs != 1 together with an
explicit (non-None) batch_size makes fit fail with ValueError before any
oracle call is made and before any gradient step is applied: the failure
is uniform in the problem, the oracle, the worker count and the data, and
no state or curve is returned. -/
theorem C4_parallel_with_batch_size_fails {d : ℕ} {I L : Type} (sqrt : ℚ → ℚ)
    (prob : Problem I L d) (findConstraint : Oracle I L d) (cpuCount : ℕ)
    (interrupted : ℕ → Bool) (s : Learner d) (X : List I) (Y : List L) (k : ℕ)
    (hj : s.nJobs ≠ 1) (hb : s.batchSize = some k) (hm : 1 ≤ s.maxIter)
    (hI : interrupted 0 = false) :
    fit sqrt prob findConstraint cpuCount interrupted s X Y =
      .error .valueError := by
  obtain ⟨m, hm2⟩ : ∃ m, s.maxIter.toNat = m + 1 :=
    ⟨s.maxIter.toNat - 1, by omega⟩
  unfold fit
  rw [hm2, fitAux_succ, if_neg (by simp [hI]), if_neg hj]
  unfold parallelLearning
  rw [if_pos (by simp [hb])]

theorem C4_parallel_with_batch_size_fails_witness :
    fit sqrtId trivProblem zeroOracle 4 (fun _ => false)
        { base with maxIter := 3, nJobs := -1, batchSize := some 5 } [()] [()] =
      .error .valueError :=
  C4_parallel_with_batch_size_fails sqrtId trivProblem zeroOracle 4
    (fun _ => false) { base with maxIter := 3, nJobs := -1, batchSize := some 5 }
    [()] [()] 5 (by decide) rfl (by norm_num) rfl

/-- C5: the claim is right about the intended design, and the code is
wrong.  With any explicit n_jobs > 1 (here 2) and batch_size None, the
worker-count resolution in _parallel_learning reads self.j_jobs, an
attribute that is never set anywhere (the option is stored as n_jobs), so
the epoch raises AttributeError instead of running to completion with
worker count 2; fit propagates the error.  The n_jobs == -1 branch does
resolve to cpu_count() as claimed. -/
theorem C5_j_jobs_attribute_error :
    (parallelLearning sqrtId oneOracle 4 { base with nJobs := 2 }
        [(), ()] [(), ()] = .error .attributeError) ∧
    (fit sqrtId trivProblem oneOracle 4 (fun _ => false)
        { base with maxIter := 5, nJobs := 2 } [(), ()] [(), ()] =
      .error .attributeError) := by
  exact ⟨rfl, rfl⟩

/-- C6: in parallel mode, within each slice only the examples whose
constraint has slack > 0 contribute — each adds its delta_psi to the
slice's dpsi sum, its slack to the objective and one to positive_slacks,
while an example with slack <= 0 changes none of these — and after the
slice completes exactly one gradient step is applied (t grows by exactly
one per slice) with the slice's aggregated dpsi and with n equal to the
total dataset size X.length, as the parallel epoch's fold shows. -/
theorem C6_parallel_slice_aggregation {d : ℕ} {I L : Type} (sqrt : ℚ → ℚ)
    (findConstraint : Oracle I L d) (cpuCount : ℕ) (s : Learner d)
    (X : List I) (Y : List L) (acc : EpochAcc d) (sl : ℕ × ℕ)
    (c : L × Vec d × ℚ × ℚ) (acc2 : ℚ × ℕ × Vec d) :
    (c.2.2.1 > 0 →
      slackAccum acc2 c =
        (acc2.1 + c.2.2.1, acc2.2.1 + 1, fun i => acc2.2.2 i + c.2.1 i)) ∧
    (¬c.2.2.1 > 0 → slackAccum acc2 c = acc2) ∧
    (parallelBatchBody sqrt findConstraint X.length X Y acc sl =
      (let folded := (((sliceList X sl).zip (sliceList Y sl)).map
          (fun xy => findConstraint xy.1 xy.2 acc.2.2.w)).foldl slackAccum
          (acc.1, acc.2.1, fun _ => 0)
       (folded.1, folded.2.1,
        solveSubgradient sqrt acc.2.2 folded.2.2 X.length))) ∧
    ((parallelBatchBody sqrt findConstraint X.length X Y acc sl).2.2.t =
      acc.2.2.t + 1) ∧
    (s.batchSize = none → s.nJobs = -1 →
      parallelLearning sqrt findConstraint cpuCount s X Y =
        .ok ((genEvenSlices X.length (ceilDivNat X.length cpuCount)).foldl
          (parallelBatchBody sqrt findConstraint X.length X Y) (0, 0, s))) := by
  refine ⟨fun h => ?_, fun h => ?_, rfl, ?_, fun hb hj => ?_⟩
  · unfold slackAccum
    rw [if_pos h]
  · unfold slackAccum
    rw [if_neg h]
  · rw [parallelBatchBody_eq]
    exact solveSubgradient_t sqrt acc.2.2 _ X.length
  · unfold parallelLearning
    rw [if_neg (by simp [hb]), if_pos hj]

theorem C6_parallel_slice_aggregation_witness :
    (slackAccum acc0 cPos =
      (acc0.1 + cPos.2.2.1, acc0.2.1 + 1, fun i => acc0.2.2 i + cPos.2.1 i)) ∧
    (slackAccum acc0 cZero = acc0) ∧
    (parallelLearning sqrtId oneOracle 2 { base with nJobs := -1 }
        [(), ()] [(), ()] =
      .ok ((genEvenSlices 2 (ceilDivNat 2 2)).foldl
        (parallelBatchBody sqrtId oneOracle 2 [(), ()] [(), ()])
        (0, 0, { base with nJobs := -1 }))) :=
  ⟨(C6_parallel_slice_aggregation sqrtId oneOracle 2 { base with nJobs := -1 }
      [(), ()] [(), ()] (0, 0, { base with nJobs := -1 }) (0, 2) cPos acc0).1
      (by norm_num [cPos]),
   (C6_parallel_slice_aggregation sqrtId oneOracle 2 { base with nJobs := -1 }
      [(), ()] [(), ()] (0, 0, { base with nJobs := -1 }) (0, 2) cZero acc0).2.1
      (by norm_num [cZero]),
   (C6_parallel_slice_aggregation sqrtId oneOracle 2 { base with nJobs := -1 }
      [(), ()] [(), ()] (0, 0, { base with nJobs := -1 }) (0, 2) cZero acc0).2.2.2.2
      rfl rfl⟩

/-- C7: when the user interrupt fires during the second iteration's epoch
of a sequential fit whose first iteration did not trigger the
no-constraints break, fit returns normally (an ok result, not an error):
the interrupted iteration contributes no entry to the objective curve,
while the completed first iteration's learner state and its single
objective-curve entry are retained, so with max_iter >= 2 the curve has
length exactly 1. -/
theorem C7_interrupt_returns_normally {d : ℕ} {I L : Type} (sqrt : ℚ → ℚ)
    (prob : Problem I L d) (findConstraint : Oracle I L d) (cpuCount : ℕ)
    (interrupted : ℕ → Bool) (s : Learner d) (X : List I) (Y : List L)
    (hj : s.nJobs = 1) (hm : 2 ≤ s.maxIter)
    (hI0 : interrupted 0 = false) (hI1 : interrupted 1 = true)
    (h1 : ¬((sequentialLearning sqrt prob findConstraint s X Y).2.1 = 0 ∧
        (sequentialLearning sqrt prob findConstraint s X Y).2.2.breakOnNoConstraints)) :
    fit sqrt prob findConstraint cpuCount interrupted s X Y =
      .ok ((sequentialLearning sqrt prob findConstraint s X Y).2.2,
        [(sequentialLearning sqrt prob findConstraint s X Y).1 *
            (sequentialLearning sqrt prob findConstraint s X Y).2.2.C +
          (∑ i, (sequentialLearning sqrt prob findConstraint s X Y).2.2.w i ^ 2) / 2]) := by
  obtain ⟨m, hm2⟩ : ∃ m, s.maxIter.toNat = (m + 1) + 1 :=
    ⟨s.maxIter.toNat - 2, by omega⟩
  unfold fit
  rw [hm2, fitAux_succ, if_neg (by simp [hI0]), if_pos hj]
  rcases hSL : sequentialLearning sqrt prob findConstraint s X Y with ⟨obj, ps, s2⟩
  rw [hSL] at h1
  simp only []
  rw [if_neg h1, fitAux_succ, if_pos hI1, List.nil_append]

theorem C7_interrupt_returns_normally_witness :
    fit sqrtId trivProblem oneOracle 1 intrAt1 { base with maxIter := 10 }
        [(), ()] [(), ()] =
      .ok ((sequentialLearning sqrtId trivProblem oneOracle
          { base with maxIter := 10 } [(), ()] [(), ()]).2.2,
        [(sequentialLearning sqrtId trivProblem oneOracle
              { base with maxIter := 10 } [(), ()] [(), ()]).1 *
            (sequentialLearning sqrtId trivProblem oneOracle
              { base with maxIter := 10 } [(), ()] [(), ()]).2.2.C +
          (∑ i, (sequentialLearning sqrtId trivProblem oneOracle
              { base with maxIter := 10 } [(), ()] [(), ()]).2.2.w i ^ 2) / 2]) :=
  C7_interrupt_returns_normally sqrtId trivProblem oneOracle 1 intrAt1
    { base with maxIter := 10 } [(), ()] [(), ()] rfl (by norm_num) rfl rfl
    (by decide)

/-- C8 counterexample: a fit call with max_iter = 0 surfaces no error at
all: xrange(0) is empty, so fit returns normally with the learner
untouched and an empty objective curve, contrary to the claimed
immediate configuration error. -/
theorem C8_counterexample_no_error :
    fit sqrtId trivProblem oneOracle 1 (fun _ => false)
        { base with maxIter := 0 } [()] [()] =
      .ok ({ base with maxIter := 0 }, []) := by
  rfl

/-- C8 (amended): for every fit call with a non-positive max_iter no
error is raised and fit runs zero epochs: whatever the problem, the
oracle and the data, it returns normally with the learner state unchanged
(so no oracle call and no gradient step happened) and an empty objective
curve. -/
theorem C8_nonpositive_max_iter_runs_nothing {d : ℕ} {I L : Type}
    (sqrt : ℚ → ℚ) (prob : Problem I L d) (findConstraint : Oracle I L d)
    (cpuCount : ℕ) (interrupted : ℕ → Bool) (s : Learner d) (X : List I)
    (Y : List L) (hm : s.maxIter ≤ 0) :
    fit sqrt prob findConstraint cpuCount interrupted s X Y = .ok (s, []) := by
  unfold fit
  rw [Int.toNat_of_nonpos hm]
  rfl

theorem C8_nonpositive_max_iter_runs_nothing_witness :
    fit sqrtId trivProblem oneOracle 1 (fun _ => false)
        { base with maxIter := -3 } [()] [()] =
      .ok ({ base with maxIter := -3 }, []) :=
  C8_nonpositive_max_iter_runs_nothing sqrtId trivProblem oneOracle 1
    (fun _ => false) { base with maxIter := -3 } [()] [()] (by norm_num)

/-- C9: the step counter t increases by exactly one per applied gradient
step: an online epoch over N = len(X) examples raises t by exactly N, a
mini-batch epoch raises t by exactly the number of batches produced by
gen_even_slices, a parallel epoch raises t by exactly its number of
slices, and across a whole fit call t never decreases. -/
theorem C9_step_counter {d : ℕ} {I L : Type} (sqrt : ℚ → ℚ)
    (prob : Problem I L d) (findConstraint : Oracle I L d) (cpuCount : ℕ)
    (interrupted : ℕ → Bool) (s : Learner d) (X : List I) (Y : List L)
    (k : ℕ) (r : EpochAcc d) (sf : Learner d) (cf : List ℚ) (dpsi : Vec d)
    (n : ℕ) :
    ((solveSubgradient sqrt s dpsi n).t = s.t + 1) ∧
    ((s.batchSize = none ∨ s.batchSize = some 1) → X.length = Y.length →
      (sequentialLearning sqrt prob findConstraint s X Y).2.2.t =
        s.t + X.length) ∧
    (s.batchSize = some k → k ≠ 1 →
      (sequentialLearning sqrt prob findConstraint s X Y).2.2.t =
        s.t + (genEvenSlices X.length (ceilDivNat X.length k)).length) ∧
    (parallelLearning sqrt findConstraint cpuCount s X Y = .ok r →
      r.2.2.t =
        s.t + (genEvenSlices X.length (ceilDivNat X.length cpuCount)).length) ∧
    (fit sqrt prob findConstraint cpuCount interrupted s X Y = .ok (sf, cf) →
      s.t ≤ sf.t) := by
  refine ⟨solveSubgradient_t sqrt s dpsi n, fun hb hXY => ?_, fun hb hk => ?_,
    fun hok => ?_, fun hok => ?_⟩
  · rw [sequentialLearning_online_eq sqrt prob findConstraint s X Y hb,
      foldl_onlineBody_t]
    simp [List.length_zip, ← hXY]
  · rw [sequentialLearning_miniBatch_eq sqrt prob findConstraint s X Y k hb hk,
      foldl_miniBatchBody_t]
  · obtain ⟨-, -, hr⟩ :=
      parallelLearning_ok_elim sqrt findConstraint cpuCount s X Y r hok
    rw [hr, foldl_parallelBatchBody_t]
  · exact fitAux_t_mono sqrt prob findConstraint cpuCount interrupted X Y
      _ _ _ _ _ _ hok

theorem C9_step_counter_witness :
    ((sequentialLearning sqrtId trivProblem oneOracle base
        [(), ()] [(), ()]).2.2.t = base.t + [(), ()].length) ∧
    ((sequentialLearning sqrtId trivProblem oneOracle
        { base with batchSize := some 2 } [(), ()] [(), ()]).2.2.t =
      ({ base with batchSize := some 2 } : Learner 1).t +
        (genEvenSlices [(), ()].length (ceilDivNat [(), ()].length 2)).length) ∧
    (((genEvenSlices [(), ()].length (ceilDivNat [(), ()].length 3)).foldl
        (parallelBatchBody sqrtId oneOracle [(), ()].length [(), ()] [(), ()])
        (0, 0, { base with nJobs := -1 })).2.2.t =
      ({ base with nJobs := -1 } : Learner 1).t +
        (genEvenSlices [(), ()].length (ceilDivNat [(), ()].length 3)).length) ∧
    (({ base with maxIter := 1 } : Learner 1).t ≤
      (sequentialLearning sqrtId trivProblem zeroOracle
        { base with maxIter := 1 } [()] [()]).2.2.t) :=
  ⟨(C9_step_counter sqrtId trivProblem oneOracle 1 (fun _ => false) base
      [(), ()] [(), ()] 2 (0, 0, base) base [] (fun _ => 0) 1).2.1 (Or.inl rfl) rfl,
   (C9_step_counter sqrtId trivProblem oneOracle 1 (fun _ => false)
      { base with batchSize := some 2 } [(), ()] [(), ()] 2 (0, 0, base) base []
      (fun _ => 0) 1).2.2.1 rfl (by decide),
   (C9_step_counter sqrtId trivProblem oneOracle 3 (fun _ => false)
      { base with nJobs := -1 } [(), ()] [(), ()] 2
      ((genEvenSlices [(), ()].length (ceilDivNat [(), ()].length 3)).foldl
        (parallelBatchBody sqrtId oneOracle [(), ()].length [(), ()] [(), ()])
        (0, 0, { base with nJobs := -1 })) base [] (fun _ => 0) 1).2.2.2.1 rfl,
   (C9_step_counter sqrtId trivProblem zeroOracle 1 (fun _ => false)
      { base with maxIter := 1 } [()] [()] 2 (0, 0, base)
      (sequentialLearning sqrtId trivProblem zeroOracle
        { base with maxIter := 1 } [()] [()]).2.2 [] (fun _ => 0) 1).2.2.2.2 rfl⟩

theorem fitAux_miniBatch_curve {d : ℕ} {I L : Type} (sqrt : ℚ → ℚ)
    (prob : Problem I L d) (findConstraint : Oracle I L d) (cpuCount : ℕ)
    (interrupted : ℕ → Bool) (X : List I) (Y : List L) (k : ℕ)
    (hk : 2 ≤ k) (hX : X ≠ []) (hIn : ∀ i, interrupted i = false) :
    ∀ (fuel iter : ℕ) (s : Learner d) (curve : List ℚ),
      s.batchSize = some k → s.nJobs = 1 →
      ∃ sf cf,
        fitAux sqrt prob findConstraint cpuCount interrupted X Y fuel iter
            s curve = .ok (sf, cf) ∧
        cf.length = curve.length + fuel := by
  intro fuel
  induction fuel with
  | zero =>
    intro iter s curve hb hj
    exact ⟨s, curve, rfl, by omega⟩
  | succ f ih =>
    intro iter s curve hb hj
    rw [fitAux_succ, if_neg (by simp [hIn iter]), if_pos hj]
    have hps := sequentialLearning_miniBatch_ps sqrt prob findConstraint s X Y
      k hb hk hX
    have hbs := sequentialLearning_batchSize sqrt prob findConstraint s X Y
    have hnj := sequentialLearning_nJobs sqrt prob findConstraint s X Y
    have hps0 : (sequentialLearning sqrt prob findConstraint s X Y).2.1 ≠ 0 := by
      rw [hps]
      have h1 : 0 < ceilDivNat X.length k :=
        one_le_ceilDivNat (by omega) (List.length_pos.mpr hX)
      have h2 := Nat.mul_pos h1 (show 0 < k by omega)
      omega
    rcases hSL : sequentialLearning sqrt prob findConstraint s X Y with ⟨obj, ps, s2⟩
    rw [hSL] at hps0 hbs hnj
    simp only []
    rw [if_neg (fun hand => hps0 hand.1)]
    rw [hb] at hbs
    obtain ⟨sf, cf, heq, hlen⟩ := ih (iter + 1) s2
      (curve ++ [obj * s2.C + (∑ i, s2.w i ^ 2) / 2]) hbs (by rw [hnj, hj])
    refine ⟨sf, cf, heq, ?_⟩
    simp only [List.length_append, List.length_singleton] at hlen
    omega

/-- C10: in sequential mini-batch mode with batch_size = k > 1 on a
non-empty dataset, every epoch returns
positive_slacks = ceil(N / k) * k, which is at least N and strictly
positive whatever the oracle returns; consequently the
positive_slacks == 0 stop condition never fires and, with no interrupt,
break_on_no_constraints never ends mini-batch training early: the
objective curve reaches the full max_iter length. -/
theorem C10_mini_batch_never_breaks {d : ℕ} {I L : Type} (sqrt : ℚ → ℚ)
    (prob : Problem I L d) (findConstraint : Oracle I L d) (cpuCount : ℕ)
    (interrupted : ℕ → Bool) (s : Learner d) (X : List I) (Y : List L) (k : ℕ)
    (hb : s.batchSize = some k) (hk : 2 ≤ k) (hX : X ≠ []) (hj : s.nJobs = 1)
    (hIn : ∀ i, interrupted i = false) :
    ((sequentialLearning sqrt prob findConstraint s X Y).2.1 =
      ceilDivNat X.length k * k) ∧
    (X.length ≤ (sequentialLearning sqrt prob findConstraint s X Y).2.1) ∧
    (0 < (sequentialLearning sqrt prob findConstraint s X Y).2.1) ∧
    (curveLen (fit sqrt prob findConstraint cpuCount interrupted s X Y) =
      some s.maxIter.toNat) := by
  have hps := sequentialLearning_miniBatch_ps sqrt prob findConstraint s X Y
    k hb hk hX
  have hN := List.length_pos.mpr hX
  refine ⟨hps, ?_, ?_, ?_⟩
  · rw [hps]
    exact le_ceilDivNat_mul (by omega) hN
  · rw [hps]
    exact Nat.mul_pos (one_le_ceilDivNat (by omega) hN) (by omega)
  · obtain ⟨sf, cf, heq, hlen⟩ := fitAux_miniBatch_curve sqrt prob
      findConstraint cpuCount interrupted X Y k hk hX hIn s.maxIter.toNat 0
      s [] hb hj
    unfold fit
    rw [heq]
    simp only [curveLen, Except.toOption, Option.map_some]
    simp at hlen
    simp [hlen]

theorem C10_mini_batch_never_breaks_witness :
    ((sequentialLearning sqrtId trivProblem oneOracle
        { base with batchSize := some 2, maxIter := 3 }
        [(), (), ()] [(), (), ()]).2.1 =
      ceilDivNat [(), (), ()].length 2 * 2) ∧
    ([(), (), ()].length ≤
      (sequentialLearning sqrtId trivProblem oneOracle
        { base with batchSize := some 2, maxIter := 3 }
        [(), (), ()] [(), (), ()]).2.1) ∧
    (0 < (sequentialLearning sqrtId trivProblem oneOracle
        { base with batchSize := some 2, maxIter := 3 }
        [(), (), ()] [(), (), ()]).2.1) ∧
    (curveLen (fit sqrtId trivProblem oneOracle 1 (fun _ => false)
        { base with batchSize := some 2, maxIter := 3 }
        [(), (), ()] [(), (), ()]) = some ((3 : ℤ).toNat)) :=
  C10_mini_batch_never_breaks sqrtId trivProblem oneOracle 1 (fun _ => false)
    { base with batchSize := some 2, maxIter := 3 } [(), (), ()] [(), (), ()]
    2 rfl (by norm_num) (by decide) rfl (fun _ => rfl)

end Pystruct
